import Mathlib

/-!
Verification development for the rental-agent dispute core.

The dispute engine lives in two places in the repository:
* `src/agent/src/services/disputeService.js` (the off-chain service), embedded
  below in namespace `Svc`;
* `src/contract/src/DisputeResolution.sol` (the on-chain contract), embedded
  below in namespace `Chain`.

Hashing is modelled symbolically: a digest is a term of the free algebra
generated by `leaf` (hashing an identifier string) and `node` (hashing the
concatenation of two digests).  The JS code uses SHA-256 over strings (leaf
digests are 64-char hex strings, so concatenation of two digests is injective)
and the contract uses keccak256 over bytes32 pairs; in both cases, distinct
terms of the free algebra correspond to distinct digests up to hash collisions.
`zero` stands for the all-zero word `bytes32(0)` that the contract returns for
an empty leaf set; it is not in the range of the hash function.
-/

namespace RentalAgent

instance (ε α : Type) [DecidableEq ε] [DecidableEq α] : DecidableEq (Except ε α) :=
  fun a b =>
    match a, b with
    | .error e1, .error e2 =>
      if h : e1 = e2 then .isTrue (h ▸ rfl)
      else .isFalse (fun he => h (Except.error.inj he))
    | .error _, .ok _ => .isFalse (fun he => Except.noConfusion he)
    | .ok _, .error _ => .isFalse (fun he => Except.noConfusion he)
    | .ok a1, .ok a2 =>
      if h : a1 = a2 then .isTrue (h ▸ rfl)
      else .isFalse (fun he => h (Except.ok.inj he))

/-- Symbolic digest domain shared by both verifiers. -/
inductive Digest where
  | zero : Digest
  | leaf : String → Digest
  | node : Digest → Digest → Digest
deriving DecidableEq, Repr

/-- Leaf hash: `crypto.createHash(sha256).update(txId)` in the service,
`keccak256(abi.encodePacked(evidenceTxIds[i]))` in the contract. -/
def hashLeaf (s : String) : Digest := Digest.leaf s

/-- Internal-node hash: hash of the concatenation of two digests. -/
def hashNode (l r : Digest) : Digest := Digest.node l r

/-- Lexicographic comparison of character sequences, as performed by the
default comparator of JS `Array.prototype.sort` on strings: compare code
units one by one, the shorter string first on a tie.  (The evidence
identifiers in play are ASCII, where UTF-16 code units and Unicode code
points coincide.) -/
def charListLe : List Char → List Char → Bool
  | [], _ => true
  | _ :: _, [] => false
  | c :: cs, d :: ds =>
    if c = d then charListLe cs ds
    else decide (c.toNat < d.toNat)

/-- The string order used to canonicalize evidence ids: lexicographic on the
underlying character sequence. -/
def strLe (a b : String) : Bool := charListLe a.data b.data

/-- `[...evidenceTxIds].sort()` from `generateMerkleRoot`, embedded as an
insertion sort for `strLe`; the JS sort and the insertion sort compute the
same (unique) sorted permutation of the input. -/
def sortIds (ids : List String) : List String :=
  ids.insertionSort (fun a b => strLe a b = true)

namespace Svc

/-- One pass of the `while (currentLevel.length > 1)` loop body of
`generateMerkleRoot` in `disputeService.js`: adjacent pairs are hashed, and a
trailing odd node is paired with itself (`right = i + 1 < length ? level[i+1] :
left`). -/
def pairUp : List Digest → List Digest
  | x :: y :: rest => hashNode x y :: pairUp rest
  | [x] => [hashNode x x]
  | [] => []

/-- The `while (currentLevel.length > 1)` loop of `generateMerkleRoot`, run
with an explicit iteration bound.  Each pass at least halves a level of length
two or more, so a bound equal to the initial length is always sufficient
(see `collapseFuel_singleton`). -/
def collapseFuel : Nat → List Digest → List Digest
  | _, [] => []
  | _, [x] => [x]
  | 0, x :: y :: rest => x :: y :: rest
  | n + 1, x :: y :: rest => collapseFuel n (pairUp (x :: y :: rest))

/-- `generateMerkleRoot` from `disputeService.js`: sort the evidence ids
(`[...evidenceTxIds].sort()` sorts strings lexicographically; embedded as an
insertion sort for the linear order on `String`, which produces the same
sorted permutation), hash each id into a leaf, then collapse levels bottom-up.
On the empty list the JS function returns `currentLevel[0]` of an empty level,
i.e. `undefined`, embedded as `none`. -/
def generateMerkleRoot (evidenceTxIds : List String) : Option Digest :=
  let sortedIds := sortIds evidenceTxIds
  let leaves := sortedIds.map hashLeaf
  (collapseFuel leaves.length leaves).head?

/-- One step of a Merkle inclusion proof as consumed by `verifyMerkleProof`:
a sibling digest plus its position, where the position is the literal string
compared against `"left"` in the JS code (any other value is treated as
right). -/
structure ProofStep where
  hash : Digest
  position : String
deriving DecidableEq, Repr

/-- `verifyMerkleProof` from `disputeService.js`: start from the leaf hash of
the evidence id, fold the proof path, and compare the recomputed digest with
the candidate root.  A mismatch yields the boolean `false`. -/
def verifyMerkleProof (evidenceTxId : String) (merkleProof : List ProofStep)
    (merkleRoot : Digest) : Bool :=
  let currentHash := merkleProof.foldl
    (fun cur step =>
      if step.position = "left" then hashNode step.hash cur
      else hashNode cur step.hash)
    (hashLeaf evidenceTxId)
  currentHash = merkleRoot

/-- Error taxonomy raised by `disputeService.js` (the classes imported from
`middleware/errorHandler`): `ValidationError`, `NotFoundError`,
`ArweaveError`. -/
inductive Err where
  | validation : String → Err
  | notFound : String → Err
  | arweave : String → Err
deriving DecidableEq, Repr

/-- Dispute status strings used by `disputeService.js`
(`pending`, `resolved`, `expired`). -/
inductive Status where
  | pending
  | resolved
  | expired
deriving DecidableEq, Repr

/-- A dispute package record as stored in the service database
(`disputeService.js`, `buildDisputePackage` / `updateDisputeStatus` /
`cleanupExpiredDisputes`).  Timestamps are milliseconds as `Nat`.  The fields
`updatedAt`, `updatedBy` and `arweaveTxId` are absent (`undefined`) until
first written, embedded as `Option`. -/
structure Dispute where
  id : String
  leaseId : String
  evidenceTxIds : List String
  merkleRoot : Digest
  createdBy : String
  createdAt : Nat
  status : Status
  expiresAt : Nat
  updatedAt : Option Nat := none
  updatedBy : Option String := none
  arweaveTxId : Option String := none
deriving DecidableEq, Repr

/-- The in-memory database of the service: a JS `Map` from dispute id to
record, embedded as an insertion-ordered association list. -/
abbrev Db : Type := List (String × Dispute)

/-- `Map.get`: the value stored under a key, if any. -/
def dbGet (db : Db) (k : String) : Option Dispute :=
  (List.find? (fun p => p.1 == k) db).map (·.2)

/-- `Map.set`: replace the entry in place when the key is present, otherwise
append the new entry. -/
def dbSet (db : Db) (k : String) (v : Dispute) : Db :=
  if List.any db (fun p => p.1 == k) then
    List.map (fun p => if p.1 == k then (k, v) else p) db
  else
    db ++ [(k, v)]

/-- The JS comparison `evidenceTxIds.length > config.DISPUTE_MAX_EVIDENCE_COUNT`
in `buildDisputePackage`.  The configuration module defines
`MIN_EVIDENCE_COUNT` and `MAX_EVIDENCE_COUNT` but no key named
`DISPUTE_MAX_EVIDENCE_COUNT`, so the right-hand side is `undefined` and the
JS `>` comparison evaluates to `false` for every length. -/
def exceedsMaxEvidenceCount (_length : Nat) : Bool := false

/-- The value returned to the caller of `buildDisputePackage` on success. -/
structure BuildOk where
  disputeId : String
  merkleRoot : Digest
  arweaveTxId : String
  evidenceCount : Nat
deriving DecidableEq, Repr

/-- `buildDisputePackage` from `disputeService.js`.  External collaborators
are injected: `disputeId` stands for the generated `uuidv4()`, `now` for
`Date.now()`, `expiryDays` for `config.DISPUTE_EXPIRY_DAYS`, and
`anchorResult` for the outcome of the Arweave anchoring call performed by
`storeDisputePackageOnArweave` (whose failure is surfaced as an
`ArweaveError`).  The function returns the database after the call together
with the result or thrown error; note that the package is inserted into the
database before anchoring is attempted and is not removed when anchoring
fails. -/
def buildDisputePackage (db : Db) (leaseId : String) (evidenceTxIds : List String)
    (walletAddress : String) (disputeId : String) (now : Nat) (expiryDays : Nat)
    (anchorResult : Except String String) : Db × Except Err BuildOk :=
  if leaseId = "" then
    (db, .error (.validation "Lease ID is required"))
  else if evidenceTxIds = [] then
    (db, .error (.validation "Evidence transaction IDs are required"))
  else if exceedsMaxEvidenceCount evidenceTxIds.length then
    (db, .error (.validation "Maximum evidence count exceeded"))
  else
    match generateMerkleRoot evidenceTxIds with
    | none => (db, .error (.validation "Failed to generate Merkle root"))
    | some merkleRoot =>
      let disputePackage : Dispute :=
        { id := disputeId
          leaseId := leaseId
          evidenceTxIds := evidenceTxIds
          merkleRoot := merkleRoot
          createdBy := walletAddress
          createdAt := now
          status := .pending
          expiresAt := now + expiryDays * 86400000 }
      let db1 := dbSet db disputeId disputePackage
      match anchorResult with
      | .error e => (db1, .error (.arweave e))
      | .ok arweaveTxId =>
        let db2 := dbSet db1 disputeId { disputePackage with arweaveTxId := some arweaveTxId }
        (db2, .ok ⟨disputeId, merkleRoot, arweaveTxId, evidenceTxIds.length⟩)

/-- `verifyEvidenceInDispute` from `disputeService.js`: look the dispute up,
require the evidence id to be listed in the package, then check the Merkle
proof against the stored root; a failing proof is turned into a thrown
`ValidationError`, and only `true` is ever returned. -/
def verifyEvidenceInDispute (db : Db) (disputeId evidenceTxId : String)
    (merkleProof : List ProofStep) : Except Err Bool :=
  match dbGet db disputeId with
  | none => .error (.notFound "Dispute package not found")
  | some dispute =>
    if evidenceTxId ∈ dispute.evidenceTxIds then
      if verifyMerkleProof evidenceTxId merkleProof dispute.merkleRoot then
        .ok true
      else
        .error (.validation "Invalid Merkle proof")
    else
      .error (.validation "Evidence not found in dispute package")

/-- `updateDisputeStatus` from `disputeService.js`: look the dispute up and
overwrite its status unconditionally, stamping `updatedAt`/`updatedBy`.
There is no check of the current status. -/
def updateDisputeStatus (db : Db) (disputeId : String) (status : Status)
    (walletAddress : String) (now : Nat) : Db × Except Err Dispute :=
  match dbGet db disputeId with
  | none => (db, .error (.notFound "Dispute package not found"))
  | some dispute =>
    let dispute1 := { dispute with
      status := status
      updatedAt := some now
      updatedBy := some walletAddress }
    (dbSet db disputeId dispute1, .ok dispute1)

/-- The per-record update applied by the second loop of
`cleanupExpiredDisputes`. -/
def expireDispute (d : Dispute) (now : Nat) : Dispute :=
  { d with status := .expired, updatedAt := some now }

/-- The second loop of `cleanupExpiredDisputes`: mark every collected id
expired. -/
def expireAll (now : Nat) (ids : List String) (db : Db) : Db :=
  ids.foldl
    (fun acc disputeId =>
      match dbGet acc disputeId with
      | some d => dbSet acc disputeId (expireDispute d now)
      | none => acc)
    db

/-- `cleanupExpiredDisputes` from `disputeService.js`: collect the ids of all
disputes with `expiresAt < now` (strict) that are still `pending`, mark each
of them expired with `updatedAt = now`, and return the number of collected
ids. -/
def cleanupExpiredDisputes (db : Db) (now : Nat) : Db × Nat :=
  let expiredIds :=
    (db.filter (fun p => decide (p.2.expiresAt < now) && p.2.status == .pending)).map (·.1)
  (expireAll now expiredIds db, expiredIds.length)

/-- Distinct key lists: the well-formedness invariant a JS `Map` guarantees
for its embedding as an association list. -/
def NodupKeys (db : Db) : Prop := (db.map Prod.fst).Nodup

instance (db : Db) : Decidable (NodupKeys db) := by
  unfold NodupKeys
  infer_instance

end Svc

namespace Chain

/-- One pass of the level loop of `_generateMerkleRoot` in
`DisputeResolution.sol`: adjacent pairs are hashed with keccak256, and a
trailing odd node is promoted unchanged to the next level
(`nextLevel[i / 2] = currentLevel[i]`). -/
def pairUpPromote : List Digest → List Digest
  | x :: y :: rest => hashNode x y :: pairUpPromote rest
  | [x] => [x]
  | [] => []

/-- The `while (currentLevel.length > 1)` loop of `_generateMerkleRoot`, with
an explicit iteration bound (a bound equal to the initial length is always
sufficient, as for the service-side loop). -/
def collapsePromoteFuel : Nat → List Digest → List Digest
  | _, [] => []
  | _, [x] => [x]
  | 0, x :: y :: rest => x :: y :: rest
  | n + 1, x :: y :: rest => collapsePromoteFuel n (pairUpPromote (x :: y :: rest))

/-- `_generateMerkleRoot` from `DisputeResolution.sol`: `bytes32(0)` for an
empty leaf list, the single leaf itself for a singleton, and otherwise the
bottom-up collapse with odd-node promotion.  The leaves arrive in submission
order — `createDisputePackage` performs no sort. -/
def generateMerkleRoot (leaves : List Digest) : Digest :=
  (collapsePromoteFuel leaves.length leaves).headD Digest.zero

/-- A `DisputePackage` struct of `DisputeResolution.sol`.  Addresses are
embedded as strings; timestamps are seconds as `Nat`.  A mapping slot that
was never written holds the default struct, recognizable by its empty
`leaseId` (the `disputeExists` modifier checks exactly that). -/
structure DisputePackage where
  leaseId : String
  merkleRoot : Digest
  evidenceTxIds : List String
  createdAt : Nat
  expiresAt : Nat
  resolved : Bool
  resolution : String
  resolver : String
  resolutionTimestamp : Nat
deriving DecidableEq, Repr

/-- The default value of a Solidity mapping slot of type `DisputePackage`. -/
def emptyPackage : DisputePackage :=
  { leaseId := ""
    merkleRoot := Digest.zero
    evidenceTxIds := []
    createdAt := 0
    expiresAt := 0
    resolved := false
    resolution := ""
    resolver := ""
    resolutionTimestamp := 0 }

/-- The `disputePackages` mapping, embedded as an association list with the
Solidity default for absent keys. -/
abbrev SolState : Type := List (String × DisputePackage)

/-- Read of `disputePackages[disputeId]`. -/
def solGet (st : SolState) (k : String) : DisputePackage :=
  ((List.find? (fun p => p.1 == k) st).map (·.2)).getD emptyPackage

/-- Write of `disputePackages[disputeId]`. -/
def solSet (st : SolState) (k : String) (v : DisputePackage) : SolState :=
  if List.any st (fun p => p.1 == k) then
    List.map (fun p => if p.1 == k then (k, v) else p) st
  else
    st ++ [(k, v)]

/-- `createDisputePackage` from `DisputeResolution.sol`.  The configured
bounds `minEvidenceCount` / `maxEvidenceCount` (contract defaults 3 and 100)
and `disputeExpiryDays` are passed explicitly, as are `block.timestamp`
(`now`) and the generated dispute id.  The leaves are hashed in submission
order — there is no sort — and an `error` result models a revert, which
leaves the contract storage unchanged. -/
def createDisputePackage (st : SolState) (leaseId : String)
    (evidenceTxIds : List String) (minEvidenceCount maxEvidenceCount : Nat)
    (disputeExpiryDays : Nat) (disputeId : String) (now : Nat) :
    Except String (SolState × String) :=
  if leaseId = "" then .error "Lease ID cannot be empty"
  else if evidenceTxIds.length < minEvidenceCount then .error "Insufficient evidence"
  else if maxEvidenceCount < evidenceTxIds.length then .error "Too much evidence"
  else if (solGet st disputeId).leaseId ≠ "" then .error "Dispute already exists"
  else
    let leaves := evidenceTxIds.map hashLeaf
    let merkleRoot := generateMerkleRoot leaves
    let dispute : DisputePackage :=
      { leaseId := leaseId
        merkleRoot := merkleRoot
        evidenceTxIds := evidenceTxIds
        createdAt := now
        expiresAt := now + disputeExpiryDays * 86400
        resolved := false
        resolution := ""
        resolver := ""
        resolutionTimestamp := 0 }
    .ok (solSet st disputeId dispute, disputeId)

/-- `resolveDispute` from `DisputeResolution.sol`: guarded by the
`disputeExists` and `disputeNotResolved` modifiers (in that order) and by the
non-empty-resolution `require`; there is no expiry check on this path.  An
`error` result models a revert, which leaves the contract storage
unchanged. -/
def resolveDispute (st : SolState) (disputeId resolution sender : String)
    (now : Nat) : Except String SolState :=
  let dispute := solGet st disputeId
  if dispute.leaseId = "" then .error "Dispute does not exist"
  else if dispute.resolved then .error "Dispute already resolved"
  else if resolution = "" then .error "Resolution cannot be empty"
  else
    .ok (solSet st disputeId { dispute with
      resolved := true
      resolution := resolution
      resolver := sender
      resolutionTimestamp := now })

end Chain

/-! ### Sample records for concrete evaluations -/

/-- A pending service-side dispute case with three evidence ids, expiring at
time 100. -/
def pendingCase : Svc.Dispute :=
  { id := "d1"
    leaseId := "lease-1"
    evidenceTxIds := ["a", "b", "c"]
    merkleRoot := hashNode (hashNode (hashLeaf "a") (hashLeaf "b"))
      (hashNode (hashLeaf "c") (hashLeaf "c"))
    createdBy := "w1"
    createdAt := 0
    status := Svc.Status.pending
    expiresAt := 100 }

/-- The same case, already resolved. -/
def resolvedCase : Svc.Dispute := { pendingCase with status := Svc.Status.resolved }

/-- A single-evidence case whose root is the lone leaf hash. -/
def singleCase : Svc.Dispute :=
  { id := "d1"
    leaseId := "lease-1"
    evidenceTxIds := ["a"]
    merkleRoot := hashLeaf "a"
    createdBy := "w1"
    createdAt := 0
    status := Svc.Status.pending
    expiresAt := 100 }

/-- An already-resolved on-chain dispute package. -/
def resolvedPkg : Chain.DisputePackage :=
  { leaseId := "lease-1"
    merkleRoot := hashLeaf "a"
    evidenceTxIds := ["a", "b", "c"]
    createdAt := 0
    expiresAt := 100
    resolved := true
    resolution := "settled"
    resolver := "owner"
    resolutionTimestamp := 10 }

/-! ### Properties of the canonicalization order -/

/-- `Char.toNat` is injective. -/
theorem charToNat_inj {c d : Char} (h : c.toNat = d.toNat) : c = d :=
  Char.eq_of_val_eq (UInt32.toNat.inj h)

/-- `charListLe` is total. -/
theorem charListLe_total : ∀ xs ys : List Char,
    charListLe xs ys = true ∨ charListLe ys xs = true
  | [], _ => Or.inl rfl
  | _ :: _, [] => Or.inr rfl
  | x :: xs, y :: ys => by
    by_cases hxy : x = y
    · subst hxy
      simpa [charListLe] using charListLe_total xs ys
    · have hyx : ¬y = x := fun e => hxy e.symm
      have hne : x.toNat ≠ y.toNat := fun e => hxy (charToNat_inj e)
      rcases Nat.lt_or_ge x.toNat y.toNat with hlt | hge
      · exact Or.inl (by simp [charListLe, hxy, hlt])
      · exact Or.inr (by simp [charListLe, hyx]; omega)

/-- `charListLe` is transitive. -/
theorem charListLe_trans : ∀ xs ys zs : List Char,
    charListLe xs ys = true → charListLe ys zs = true → charListLe xs zs = true
  | [], _, _ => by intro _ _; rfl
  | x :: xs, [], _ => by intro h _; simp [charListLe] at h
  | _ :: _, _ :: _, [] => by intro _ h2; simp [charListLe] at h2
  | x :: xs, y :: ys, z :: zs => by
    intro h1 h2
    by_cases hxy : x = y <;> by_cases hyz : y = z
    · subst hxy; subst hyz
      simp only [charListLe, if_pos rfl] at h1 h2 ⊢
      exact charListLe_trans xs ys zs h1 h2
    · subst hxy
      simp only [charListLe, if_pos rfl] at h1
      simpa [charListLe, hyz] using h2
    · subst hyz
      simpa [charListLe, hxy] using h1
    · have hx : x.toNat < y.toNat := by simpa [charListLe, hxy] using h1
      have hy : y.toNat < z.toNat := by simpa [charListLe, hyz] using h2
      have hxz : ¬x = z := fun e => by subst e; omega
      simp [charListLe, hxz]; omega

/-- `charListLe` is antisymmetric. -/
theorem charListLe_antisymm : ∀ xs ys : List Char,
    charListLe xs ys = true → charListLe ys xs = true → xs = ys
  | [], [] => by intro _ _; rfl
  | [], _ :: _ => by intro _ h2; simp [charListLe] at h2
  | _ :: _, [] => by intro h1 _; simp [charListLe] at h1
  | x :: xs, y :: ys => by
    intro h1 h2
    by_cases hxy : x = y
    · subst hxy
      simp only [charListLe, if_pos rfl] at h1 h2
      rw [charListLe_antisymm xs ys h1 h2]
    · have hyx : ¬y = x := fun e => hxy e.symm
      have hx : x.toNat < y.toNat := by simpa [charListLe, hxy] using h1
      have hy : y.toNat < x.toNat := by simpa [charListLe, hyx] using h2
      omega

/-- `strLe` is total. -/
theorem strLe_total (a b : String) : strLe a b = true ∨ strLe b a = true :=
  charListLe_total a.data b.data

/-- `strLe` is transitive. -/
theorem strLe_trans {a b c : String} (h1 : strLe a b = true) (h2 : strLe b c = true) :
    strLe a c = true :=
  charListLe_trans a.data b.data c.data h1 h2

/-- `strLe` is antisymmetric. -/
theorem strLe_antisymm {a b : String} (h1 : strLe a b = true) (h2 : strLe b a = true) :
    a = b := by
  have h := charListLe_antisymm a.data b.data h1 h2
  cases a
  cases b
  exact congrArg String.mk (by simpa using h)

/-- Sorting is insensitive to the input order: any two permutations of the
same identifier multiset canonicalize to the same sorted list. -/
theorem sortIds_eq_of_perm {l1 l2 : List String} (h : l1.Perm l2) :
    sortIds l1 = sortIds l2 := by
  haveI : IsTotal String (fun a b => strLe a b = true) := ⟨strLe_total⟩
  haveI : IsTrans String (fun a b => strLe a b = true) :=
    ⟨fun _ _ _ => strLe_trans⟩
  haveI : IsAntisymm String (fun a b => strLe a b = true) :=
    ⟨fun _ _ => strLe_antisymm⟩
  exact List.eq_of_perm_of_sorted
    (((List.perm_insertionSort _ l1).trans h).trans (List.perm_insertionSort _ l2).symm)
    (List.sorted_insertionSort _ l1) (List.sorted_insertionSort _ l2)

/-- `sortIds` permutes its input. -/
theorem sortIds_perm (l : List String) : (sortIds l).Perm l :=
  List.perm_insertionSort _ l

/-! ### Properties of the level-collapse loops -/

/-- One service-side pass halves the level, rounding up. -/
theorem pairUp_length : ∀ l : List Digest, (Svc.pairUp l).length = (l.length + 1) / 2
  | [] => by simp [Svc.pairUp]
  | [_] => by simp [Svc.pairUp]
  | _ :: _ :: rest => by
    simp [Svc.pairUp, pairUp_length rest]
    omega

/-- With fuel at least the level size, the service-side collapse loop reaches
a single digest. -/
theorem collapseFuel_singleton : ∀ (n : Nat) (l : List Digest),
    l ≠ [] → l.length ≤ n + 1 → ∃ d, Svc.collapseFuel n l = [d]
  | _, [], h, _ => absurd rfl h
  | n, [x], _, _ => ⟨x, by cases n <;> rfl⟩
  | 0, _ :: _ :: _, _, h2 => by simp at h2
  | n + 1, x :: y :: rest, _, h2 => by
    have hl : (Svc.pairUp (x :: y :: rest)).length = (rest.length + 2 + 1) / 2 :=
      pairUp_length _
    have hne : Svc.pairUp (x :: y :: rest) ≠ [] := by
      intro e
      rw [e] at hl
      simp at hl
      omega
    have hle : (Svc.pairUp (x :: y :: rest)).length ≤ n + 1 := by
      rw [hl]
      simp at h2
      omega
    obtain ⟨d, hd⟩ := collapseFuel_singleton n (Svc.pairUp (x :: y :: rest)) hne hle
    exact ⟨d, hd⟩

/-- The service-side root exists for every non-empty identifier list. -/
theorem generateMerkleRoot_isSome {ids : List String} (h : ids ≠ []) :
    ∃ r, Svc.generateMerkleRoot ids = some r := by
  have hs : sortIds ids ≠ [] := by
    intro e
    exact h (List.Perm.eq_nil (e ▸ (sortIds_perm ids).symm))
  have hne : (sortIds ids).map hashLeaf ≠ [] := by
    simpa using hs
  obtain ⟨d, hd⟩ :=
    collapseFuel_singleton ((sortIds ids).map hashLeaf).length
      ((sortIds ids).map hashLeaf) hne (by omega)
  simp only [List.length_map] at hd
  exact ⟨d, by simp [Svc.generateMerkleRoot, hd]⟩

/-- Permutation invariance of the service-side Merkle root. -/
theorem generateMerkleRoot_perm {l1 l2 : List String} (h : l1.Perm l2) :
    Svc.generateMerkleRoot l1 = Svc.generateMerkleRoot l2 := by
  simp only [Svc.generateMerkleRoot, sortIds_eq_of_perm h]

/-! ### Properties of the service database -/

namespace Svc

/-- Updating an entry that exists: the mapped list yields the new value at
the key. -/
theorem find?_map_set (k : String) (v : Dispute) :
    ∀ db : Db, List.any db (fun p => p.1 == k) = true →
      List.find? (fun p => p.1 == k)
        (List.map (fun p => if p.1 == k then (k, v) else p) db) = some (k, v)
  | [], h => by simp at h
  | q :: rest, h => by
    by_cases hq : q.1 = k
    · simp [hq]
    · have hrest : List.any rest (fun p => p.1 == k) = true := by
        simpa [hq] using h
      simpa [hq] using find?_map_set k v rest hrest

/-- Updating one key leaves lookups at other keys unchanged. -/
theorem find?_map_set_ne (k : String) (v : Dispute) (k2 : String) (hk : k2 ≠ k) :
    ∀ db : Db,
      List.find? (fun p => p.1 == k2)
        (List.map (fun p => if p.1 == k then (k, v) else p) db) =
      List.find? (fun p => p.1 == k2) db
  | [] => rfl
  | q :: rest => by
    have ih := find?_map_set_ne k v k2 hk rest
    have hne : ¬k = k2 := fun e => hk e.symm
    by_cases hq : q.1 = k
    · have hfq : (if (q.1 == k) = true then (k, v) else q) = (k, v) := by simp [hq]
      simp only [List.map_cons, hfq]
      rw [List.find?_cons_of_neg _ (by simpa using hne),
        List.find?_cons_of_neg _ (by simpa [hq] using hne), ih]
    · have hfq : (if (q.1 == k) = true then (k, v) else q) = q := by simp [hq]
      simp only [List.map_cons, hfq]
      by_cases hq2 : q.1 = k2
      · rw [List.find?_cons_of_pos _ (by simpa using hq2),
          List.find?_cons_of_pos _ (by simpa using hq2)]
      · rw [List.find?_cons_of_neg _ (by simpa using hq2),
          List.find?_cons_of_neg _ (by simpa using hq2), ih]

/-- A `Map.get` after a `Map.set`: the stored value at the written key,
untouched values elsewhere. -/
theorem dbGet_dbSet (db : Db) (k : String) (v : Dispute) (k2 : String) :
    dbGet (dbSet db k v) k2 = if k2 = k then some v else dbGet db k2 := by
  unfold dbSet dbGet
  by_cases hany : List.any db (fun p => p.1 == k) = true
  · rw [if_pos hany]
    by_cases hk : k2 = k
    · subst hk
      rw [if_pos rfl, find?_map_set k2 v db hany]
      rfl
    · rw [if_neg hk, find?_map_set_ne k v k2 hk db]
  · rw [if_neg hany]
    rw [List.find?_append]
    by_cases hk : k2 = k
    · subst hk
      have hnone : List.find? (fun p => p.1 == k2) db = none := by
        rw [List.find?_eq_none]
        intro p hp
        intro hbeq
        exact hany (List.any_eq_true.mpr ⟨p, hp, hbeq⟩)
      simp [hnone]
    · have hne : ¬k = k2 := fun e => hk e.symm
      simp [hne, hk]

/-- Under distinct keys, a lookup returns exactly the unique entry with that
key. -/
theorem dbGet_eq_some_iff {db : Db} (hnd : NodupKeys db) {k : String} {d : Dispute} :
    dbGet db k = some d ↔ (k, d) ∈ db := by
  constructor
  · intro h
    unfold dbGet at h
    match hf : List.find? (fun p => p.1 == k) db with
    | none => rw [hf] at h; simp at h
    | some q =>
      rw [hf] at h
      have hq : q.1 = k := by simpa using List.find?_some hf
      have hmem : q ∈ db := List.mem_of_find?_eq_some hf
      have hd : q.2 = d := by simpa using h
      rw [← hq, ← hd]
      exact hmem
  · intro hmem
    induction db with
    | nil => simp at hmem
    | cons q rest ih =>
      rcases List.mem_cons.mp hmem with hq | hrest
      · rw [← hq]
        simp [dbGet]
      · have hk : k ∈ rest.map Prod.fst :=
          List.mem_map.mpr ⟨(k, d), hrest, rfl⟩
        have hqk : ¬q.1 = k := by
          intro e
          have := (List.nodup_cons.mp hnd).1
          rw [e] at this
          exact this hk
        have hnd2 : NodupKeys rest := (List.nodup_cons.mp hnd).2
        have := ih hnd2 hrest
        simpa [dbGet, hqk] using this

/-- Under distinct keys, two entries sharing a key are the same entry. -/
theorem entry_eq_of_nodupKeys {db : Db} (hnd : NodupKeys db) {p q : String × Dispute}
    (hp : p ∈ db) (hq : q ∈ db) (hk : p.1 = q.1) : p = q := by
  induction db with
  | nil => simp at hp
  | cons r rest ih =>
    have hhead := (List.nodup_cons.mp hnd).1
    have htail : NodupKeys rest := (List.nodup_cons.mp hnd).2
    rcases List.mem_cons.mp hp with hp1 | hp2 <;>
      rcases List.mem_cons.mp hq with hq1 | hq2
    · rw [hp1, hq1]
    · exfalso
      apply hhead
      rw [hp1] at hk
      rw [hk]
      exact List.mem_map.mpr ⟨q, hq2, rfl⟩
    · exfalso
      apply hhead
      rw [hq1] at hk
      rw [← hk]
      exact List.mem_map.mpr ⟨p, hp2, rfl⟩
    · exact ih htail hp2 hq2

/-- Marking a dispute expired twice is the same as marking it once. -/
theorem expireDispute_idem (d : Dispute) (now : Nat) :
    expireDispute (expireDispute d now) now = expireDispute d now := rfl

/-- Pointwise effect of the expiry-marking loop. -/
theorem dbGet_expireAll (now : Nat) :
    ∀ (ids : List String) (db : Db) (k : String),
      dbGet (expireAll now ids db) k =
        (dbGet db k).map
          (fun d => if k ∈ ids then expireDispute d now else d)
  | [], db, k => by
    cases h : dbGet db k <;> simp [expireAll, h]
  | i :: rest, db, k => by
    have hstep :
        dbGet
          (match dbGet db i with
            | some d => dbSet db i (expireDispute d now)
            | none => db) k =
        (dbGet db k).map (fun d => if k = i then expireDispute d now else d) := by
      cases hi : dbGet db i with
      | none =>
        cases hk : dbGet db k with
        | none => simp [hk]
        | some d =>
          by_cases he : k = i
          · rw [he] at hk
            rw [hk] at hi
            exact absurd hi (by simp)
          · simp [hk, he]
      | some d0 =>
        rw [dbGet_dbSet]
        by_cases he : k = i
        · rw [he] at *
          simp [hi]
        · simp [he]
    have hrec := dbGet_expireAll now rest
      (match dbGet db i with
        | some d => dbSet db i (expireDispute d now)
        | none => db) k
    have hfold :
        expireAll now (i :: rest) db =
          expireAll now rest
            (match dbGet db i with
              | some d => dbSet db i (expireDispute d now)
              | none => db) := rfl
    rw [hfold, hrec, hstep]
    cases hk : dbGet db k with
    | none => rfl
    | some d =>
      simp only [Option.map_some']
      congr 1
      by_cases he : k = i <;> by_cases hr : k ∈ rest <;>
        simp [he, hr, expireDispute_idem]

/-- Membership in the collected expired-id list, under distinct keys. -/
theorem mem_expiredIds_iff {db : Db} (hnd : NodupKeys db) {k : String} {d : Dispute}
    (now : Nat) (hget : dbGet db k = some d) :
    k ∈ (db.filter
        (fun p => decide (p.2.expiresAt < now) && p.2.status == Status.pending)).map (·.1) ↔
      d.expiresAt < now ∧ d.status = Status.pending := by
  have hmem : (k, d) ∈ db := (dbGet_eq_some_iff hnd).mp hget
  constructor
  · intro h
    obtain ⟨p, hp, hpk⟩ := List.mem_map.mp h
    have hpdb := (List.mem_filter.mp hp).1
    have hP := (List.mem_filter.mp hp).2
    have hpe : p = (k, d) := entry_eq_of_nodupKeys hnd hpdb hmem (by simpa using hpk)
    rw [hpe] at hP
    simpa using hP
  · intro h
    refine List.mem_map.mpr ⟨(k, d), List.mem_filter.mpr ⟨hmem, ?_⟩, rfl⟩
    simpa using h

/-- Pointwise effect of the whole sweep, under distinct keys: exactly the
pending entries whose expiry time is strictly in the past are marked
expired. -/
theorem dbGet_cleanupExpiredDisputes {db : Db} (hnd : NodupKeys db) (now : Nat)
    (k : String) :
    dbGet (cleanupExpiredDisputes db now).1 k =
      (dbGet db k).map
        (fun d => if d.expiresAt < now ∧ d.status = Status.pending
          then expireDispute d now else d) := by
  simp only [cleanupExpiredDisputes]
  rw [dbGet_expireAll]
  cases hget : dbGet db k with
  | none => rfl
  | some d =>
    simp only [Option.map_some']
    congr 1
    by_cases hc : d.expiresAt < now ∧ d.status = Status.pending
    · rw [if_pos ((mem_expiredIds_iff hnd now hget).mpr hc), if_pos hc]
    · rw [if_neg (fun hmem => hc ((mem_expiredIds_iff hnd now hget).mp hmem)), if_neg hc]

/-- The sweep reports the number of entries it collected. -/
theorem cleanupExpiredDisputes_count (db : Db) (now : Nat) :
    (cleanupExpiredDisputes db now).2 =
      (db.filter
        (fun p => decide (p.2.expiresAt < now) && p.2.status == Status.pending)).length := by
  simp [cleanupExpiredDisputes]

end Svc

end RentalAgent

/-! ### Claims -/

namespace RentalAgent

/-- C1 counterexample: the chain-side `createDisputePackage` hashes the
evidence ids in submission order, so two permutations of the same id set
commit to different Merkle roots. -/
theorem chainRoot_depends_on_order :
    List.Perm ["b", "a", "c"] ["a", "b", "c"] ∧
    (Except.toOption
        (Chain.createDisputePackage [] "lease-1" ["b", "a", "c"] 3 100 30 "d1" 0)).map
        (fun r => (Chain.solGet r.1 "d1").merkleRoot) ≠
      (Except.toOption
          (Chain.createDisputePackage [] "lease-1" ["a", "b", "c"] 3 100 30 "d1" 0)).map
        (fun r => (Chain.solGet r.1 "d1").merkleRoot) := by
  constructor
  · decide
  · decide

/-- C1 (amended): the service-side `generateMerkleRoot` canonicalizes by
sorting, so it is a pure function of the identifier set — any two permutations
of the same ids yield the same root; the chain-side computation is
order-dependent. -/
theorem serviceRoot_perm_invariant {l1 l2 : List String} (h : l1.Perm l2) :
    Svc.generateMerkleRoot l1 = Svc.generateMerkleRoot l2 :=
  generateMerkleRoot_perm h

/-- Witness for `serviceRoot_perm_invariant` at a concrete permutation. -/
theorem serviceRoot_perm_invariant_witness :
    List.Perm ["b", "a"] ["a", "b"] ∧
      Svc.generateMerkleRoot ["b", "a"] = Svc.generateMerkleRoot ["a", "b"] :=
  ⟨by decide, serviceRoot_perm_invariant (by decide)⟩

/-- C2 counterexample: even on an already-sorted input the service-side and
chain-side Merkle computations disagree (the service duplicates the odd
trailing node, the contract promotes it unhashed), so the two sides commit to
different roots. -/
theorem service_chain_roots_differ :
    Svc.generateMerkleRoot ["a", "b", "c"] ≠
      some (Chain.generateMerkleRoot (["a", "b", "c"].map hashLeaf)) := by
  decide

/-- C2 (amended): the two implementations use different canonicalization
(sort versus submission order) and different odd-node rules (duplicate versus
promote) and in general produce different commitments; they agree on
single-identifier input, where both roots are the leaf hash. -/
theorem service_chain_agree_on_singleton (s : String) :
    Svc.generateMerkleRoot [s] = some (hashLeaf s) ∧
      Chain.generateMerkleRoot ([s].map hashLeaf) = hashLeaf s :=
  ⟨rfl, rfl⟩

/-- C3 counterexample: the scenario-A formula of the specification pairs
`lease-tx` with `receipt-tx`, but after lexicographic sorting the order is
`lease-tx`, `msg-tx`, `receipt-tx`, so the computed root differs from the
formula. -/
theorem scenarioA_root_ne_spec_formula :
    Svc.generateMerkleRoot ["lease-tx", "receipt-tx", "msg-tx"] ≠
      some (hashNode (hashNode (hashLeaf "lease-tx") (hashLeaf "receipt-tx"))
        (hashNode (hashLeaf "msg-tx") (hashLeaf "msg-tx"))) := by
  decide

/-- C3 (amended): for `["lease-tx", "receipt-tx", "msg-tx"]` case creation
succeeds, the case is persisted, and the root is
`hash(hash(hash("lease-tx"), hash("msg-tx")), hash(hash("receipt-tx"),
hash("receipt-tx")))` — the sorted order pairs `lease-tx` with `msg-tx` and
duplicates the odd trailing `receipt-tx`. -/
theorem scenarioA_build_succeeds_sorted_root :
    (Svc.buildDisputePackage [] "lease-1" ["lease-tx", "receipt-tx", "msg-tx"]
        "w1" "d1" 0 30 (.ok "ar1")).2 =
      .ok ⟨"d1",
        hashNode (hashNode (hashLeaf "lease-tx") (hashLeaf "msg-tx"))
          (hashNode (hashLeaf "receipt-tx") (hashLeaf "receipt-tx")),
        "ar1", 3⟩ ∧
    (Svc.dbGet (Svc.buildDisputePackage [] "lease-1"
        ["lease-tx", "receipt-tx", "msg-tx"] "w1" "d1" 0 30 (.ok "ar1")).1
        "d1").isSome = true := by
  constructor
  · decide
  · decide

/-- C4 counterexample: the service-side `updateDisputeStatus` performs no
status guard — applied to an already-resolved case it succeeds and overwrites
the status. -/
theorem updateDisputeStatus_overwrites_resolved :
    resolvedCase.status = Svc.Status.resolved ∧
    (Svc.updateDisputeStatus [("d1", resolvedCase)] "d1" Svc.Status.pending
        "w2" 50).2 =
      .ok { resolvedCase with
        status := Svc.Status.pending
        updatedAt := some 50
        updatedBy := some "w2" } ∧
    Svc.dbGet (Svc.updateDisputeStatus [("d1", resolvedCase)] "d1"
        Svc.Status.pending "w2" 50).1 "d1" =
      some { resolvedCase with
        status := Svc.Status.pending
        updatedAt := some 50
        updatedBy := some "w2" } := by
  refine ⟨rfl, ?_, ?_⟩
  · decide
  · decide

/-- C4 (amended): the expiry sweep never changes a case that is not pending,
and the chain-side `resolveDispute` on an already-resolved dispute reverts
with `Dispute already resolved`, leaving storage unchanged; but the
service-side `updateDisputeStatus` applies any status change without a
guard. -/
theorem sweep_and_chain_resolve_respect_terminal
    (db : Svc.Db) (now : Nat) (k : String) (d : Svc.Dispute)
    (st : Chain.SolState) (disputeId resolution sender : String) (now2 : Nat)
    (hnd : Svc.NodupKeys db) (hget : Svc.dbGet db k = some d)
    (hst : d.status ≠ Svc.Status.pending)
    (hex : (Chain.solGet st disputeId).leaseId ≠ "")
    (hres : (Chain.solGet st disputeId).resolved = true) :
    Svc.dbGet (Svc.cleanupExpiredDisputes db now).1 k = some d ∧
      Chain.resolveDispute st disputeId resolution sender now2 =
        .error "Dispute already resolved" := by
  constructor
  · rw [Svc.dbGet_cleanupExpiredDisputes hnd, hget]
    simp [hst]
  · simp only [Chain.resolveDispute]
    rw [if_neg hex, if_pos hres]

/-- Witness for `sweep_and_chain_resolve_respect_terminal` on concrete
states. -/
theorem sweep_and_chain_resolve_respect_terminal_witness :
    Svc.NodupKeys [("d1", resolvedCase)] ∧
    Svc.dbGet [("d1", resolvedCase)] "d1" = some resolvedCase ∧
    resolvedCase.status ≠ Svc.Status.pending ∧
    (Chain.solGet [("d1", resolvedPkg)] "d1").leaseId ≠ "" ∧
    (Chain.solGet [("d1", resolvedPkg)] "d1").resolved = true ∧
    Svc.dbGet (Svc.cleanupExpiredDisputes [("d1", resolvedCase)] 500).1 "d1" =
      some resolvedCase ∧
    Chain.resolveDispute [("d1", resolvedPkg)] "d1" "res" "owner" 50 =
      .error "Dispute already resolved" := by
  have h := sweep_and_chain_resolve_respect_terminal
    [("d1", resolvedCase)] 500 "d1" resolvedCase [("d1", resolvedPkg)]
    "d1" "res" "owner" 50 (by decide) (by decide) (by decide) (by decide) (by decide)
  exact ⟨by decide, by decide, by decide, by decide, by decide, h.1, h.2⟩

/-- C5 counterexample: scenario B — two evidence ids with the configured
minimum at 3 — succeeds on the service side: `buildDisputePackage` has no
minimum-count check (and its maximum-count check compares against an
undefined configuration key), so the case is created and persisted. -/
theorem scenarioB_build_succeeds_below_min :
    (Svc.buildDisputePackage [] "lease-1" ["e1", "e2"] "w1" "d1" 0 30
        (.ok "ar1")).2 =
      .ok ⟨"d1", hashNode (hashLeaf "e1") (hashLeaf "e2"), "ar1", 2⟩ ∧
    (Svc.dbGet (Svc.buildDisputePackage [] "lease-1" ["e1", "e2"] "w1" "d1" 0 30
        (.ok "ar1")).1 "d1").isSome = true := by
  constructor
  · decide
  · decide

/-- C5 (amended): the chain-side `createDisputePackage` enforces both bounds,
reverting (persisting nothing) when the evidence count is below the minimum
or above the maximum; the service side rejects only empty evidence lists. -/
theorem chain_create_rejects_out_of_bounds
    (st : Chain.SolState) (leaseId : String) (evidenceTxIds : List String)
    (minCount maxCount days : Nat) (disputeId : String) (now : Nat)
    (h : evidenceTxIds.length < minCount ∨ maxCount < evidenceTxIds.length) :
    ∃ msg, Chain.createDisputePackage st leaseId evidenceTxIds minCount maxCount
      days disputeId now = .error msg := by
  simp only [Chain.createDisputePackage]
  by_cases hL : leaseId = ""
  · exact ⟨_, by rw [if_pos hL]⟩
  · rw [if_neg hL]
    by_cases h1 : evidenceTxIds.length < minCount
    · exact ⟨_, by rw [if_pos h1]⟩
    · rw [if_neg h1]
      have h2 : maxCount < evidenceTxIds.length := by
        rcases h with h | h
        · omega
        · exact h
      exact ⟨_, by rw [if_pos h2]⟩

/-- Witness for `chain_create_rejects_out_of_bounds` at scenario B. -/
theorem chain_create_rejects_out_of_bounds_witness :
    ((["e1", "e2"] : List String).length < 3 ∨
      100 < (["e1", "e2"] : List String).length) ∧
    ∃ msg, Chain.createDisputePackage [] "lease-1" ["e1", "e2"] 3 100 30 "d1" 0 =
      .error msg :=
  ⟨by decide,
    chain_create_rejects_out_of_bounds [] "lease-1" ["e1", "e2"] 3 100 30 "d1" 0
      (by decide)⟩

/-- C6 counterexample: the boundary is not inclusive — a pending case whose
`expiresAt` equals `now` is left pending by the sweep and not counted,
because the code compares with strict `<`. -/
theorem sweep_boundary_not_inclusive :
    pendingCase.status = Svc.Status.pending ∧
    pendingCase.expiresAt ≤ 100 ∧
    (Svc.cleanupExpiredDisputes [("d1", pendingCase)] 100).2 = 0 ∧
    Svc.dbGet (Svc.cleanupExpiredDisputes [("d1", pendingCase)] 100).1 "d1" =
      some pendingCase := by
  refine ⟨rfl, ?_, ?_, ?_⟩
  · decide
  · decide
  · decide

/-- C6 (amended): for every time `now` the sweep transitions to expired
exactly those cases that are pending with `expiresAt < now` (strict
boundary), leaves every other case untouched, and returns the number of
cases it transitioned. -/
theorem sweep_spec_strict (db : Svc.Db) (now : Nat) (hnd : Svc.NodupKeys db) :
    (∀ k d, Svc.dbGet db k = some d →
      Svc.dbGet (Svc.cleanupExpiredDisputes db now).1 k =
        some (if d.expiresAt < now ∧ d.status = Svc.Status.pending
          then Svc.expireDispute d now else d)) ∧
    (∀ k, Svc.dbGet db k = none →
      Svc.dbGet (Svc.cleanupExpiredDisputes db now).1 k = none) ∧
    (Svc.cleanupExpiredDisputes db now).2 =
      (db.filter (fun p =>
        decide (p.2.expiresAt < now) && p.2.status == Svc.Status.pending)).length := by
  refine ⟨?_, ?_, Svc.cleanupExpiredDisputes_count db now⟩
  · intro k d hget
    rw [Svc.dbGet_cleanupExpiredDisputes hnd, hget]
    rfl
  · intro k hget
    rw [Svc.dbGet_cleanupExpiredDisputes hnd, hget]
    rfl

/-- Witness for `sweep_spec_strict` on a concrete database. -/
theorem sweep_spec_strict_witness :
    Svc.NodupKeys [("d1", pendingCase)] ∧
    Svc.dbGet [("d1", pendingCase)] "d1" = some pendingCase ∧
    Svc.dbGet (Svc.cleanupExpiredDisputes [("d1", pendingCase)] 500).1 "d1" =
      some (if pendingCase.expiresAt < 500 ∧ pendingCase.status = Svc.Status.pending
        then Svc.expireDispute pendingCase 500 else pendingCase) :=
  ⟨by decide, by decide,
    (sweep_spec_strict [("d1", pendingCase)] 500 (by decide)).1 "d1" pendingCase
      (by decide)⟩

/-- C7 counterexample: the exposed `verifyEvidenceInDispute` turns a failing
Merkle proof into a thrown `ValidationError` instead of returning the normal
`false`. -/
theorem verifyEvidenceInDispute_errors_on_mismatch :
    Svc.verifyMerkleProof "a" [⟨hashLeaf "x", "left"⟩] singleCase.merkleRoot =
      false ∧
    Svc.verifyEvidenceInDispute [("d1", singleCase)] "d1" "a"
        [⟨hashLeaf "x", "left"⟩] =
      .error (.validation "Invalid Merkle proof") := by
  constructor
  · decide
  · decide

/-- C7 (amended): the low-level `verifyMerkleProof` reports a mismatch as the
boolean `false`, never an error; the exposed `verifyEvidenceInDispute`
converts that `false` into a thrown `ValidationError` and returns `true` only
when the recomputed digest matches the stored root. -/
theorem verify_paths_on_mismatch (db : Svc.Db) (disputeId evidenceTxId : String)
    (proof : List Svc.ProofStep) (d : Svc.Dispute)
    (hget : Svc.dbGet db disputeId = some d)
    (hmem : evidenceTxId ∈ d.evidenceTxIds) :
    (Svc.verifyMerkleProof evidenceTxId proof d.merkleRoot = false →
      Svc.verifyEvidenceInDispute db disputeId evidenceTxId proof =
        .error (.validation "Invalid Merkle proof")) ∧
    (Svc.verifyMerkleProof evidenceTxId proof d.merkleRoot = true →
      Svc.verifyEvidenceInDispute db disputeId evidenceTxId proof = .ok true) := by
  unfold Svc.verifyEvidenceInDispute
  rw [hget]
  constructor
  · intro hv
    simp [hmem, hv]
  · intro hv
    simp [hmem, hv]

/-- Witness for `verify_paths_on_mismatch` on a concrete mismatching proof. -/
theorem verify_paths_on_mismatch_witness :
    Svc.dbGet [("d1", singleCase)] "d1" = some singleCase ∧
    "a" ∈ singleCase.evidenceTxIds ∧
    Svc.verifyMerkleProof "a" [⟨hashLeaf "x", "left"⟩] singleCase.merkleRoot =
      false ∧
    Svc.verifyEvidenceInDispute [("d1", singleCase)] "d1" "a"
        [⟨hashLeaf "x", "left"⟩] =
      .error (.validation "Invalid Merkle proof") :=
  ⟨by decide, by decide, by decide,
    (verify_paths_on_mismatch [("d1", singleCase)] "d1" "a"
        [⟨hashLeaf "x", "left"⟩] singleCase (by decide) (by decide)).1 (by decide)⟩

/-- C8: for every single identifier, the built root is the hash of that
identifier, and verifying that identifier with an empty proof against that
root returns `true`. -/
theorem singleton_root_and_empty_proof (s : String) :
    Svc.generateMerkleRoot [s] = some (hashLeaf s) ∧
      Svc.verifyMerkleProof s [] (hashLeaf s) = true := by
  refine ⟨rfl, ?_⟩
  simp [Svc.verifyMerkleProof]

/-- C9: when the anchoring call fails after the case has been stored, the
call surfaces an `ArweaveError`, and the already-persisted case stays
retrievable under its id with its root and evidence list intact and
`arweaveTxId` still unset — creation is not rolled back. -/
theorem anchoring_failure_keeps_case
    (db : Svc.Db) (leaseId : String) (evidenceTxIds : List String)
    (walletAddress disputeId : String) (now expiryDays : Nat) (errMsg : String)
    (root : Digest) (hL : leaseId ≠ "") (hids : evidenceTxIds ≠ [])
    (hroot : Svc.generateMerkleRoot evidenceTxIds = some root) :
    (Svc.buildDisputePackage db leaseId evidenceTxIds walletAddress disputeId
        now expiryDays (.error errMsg)).2 = .error (.arweave errMsg) ∧
    Svc.dbGet (Svc.buildDisputePackage db leaseId evidenceTxIds walletAddress
        disputeId now expiryDays (.error errMsg)).1 disputeId =
      some { id := disputeId
             leaseId := leaseId
             evidenceTxIds := evidenceTxIds
             merkleRoot := root
             createdBy := walletAddress
             createdAt := now
             status := .pending
             expiresAt := now + expiryDays * 86400000 } := by
  have hred : Svc.buildDisputePackage db leaseId evidenceTxIds walletAddress
      disputeId now expiryDays (.error errMsg) =
      (Svc.dbSet db disputeId
        { id := disputeId
          leaseId := leaseId
          evidenceTxIds := evidenceTxIds
          merkleRoot := root
          createdBy := walletAddress
          createdAt := now
          status := .pending
          expiresAt := now + expiryDays * 86400000 },
        .error (.arweave errMsg)) := by
    simp [Svc.buildDisputePackage, Svc.exceedsMaxEvidenceCount, hL, hids, hroot]
  rw [hred]
  exact ⟨rfl, by rw [Svc.dbGet_dbSet, if_pos rfl]⟩

/-- Witness for `anchoring_failure_keeps_case` on a concrete failing anchor
call. -/
theorem anchoring_failure_keeps_case_witness :
    ("lease-1" : String) ≠ "" ∧ (["a", "b", "c"] : List String) ≠ [] ∧
    Svc.generateMerkleRoot ["a", "b", "c"] =
      some (hashNode (hashNode (hashLeaf "a") (hashLeaf "b"))
        (hashNode (hashLeaf "c") (hashLeaf "c"))) ∧
    (Svc.buildDisputePackage [] "lease-1" ["a", "b", "c"] "w1" "d1" 0 30
        (.error "timeout")).2 = .error (.arweave "timeout") ∧
    Svc.dbGet (Svc.buildDisputePackage [] "lease-1" ["a", "b", "c"] "w1" "d1" 0 30
        (.error "timeout")).1 "d1" =
      some { id := "d1"
             leaseId := "lease-1"
             evidenceTxIds := ["a", "b", "c"]
             merkleRoot := hashNode (hashNode (hashLeaf "a") (hashLeaf "b"))
               (hashNode (hashLeaf "c") (hashLeaf "c"))
             createdBy := "w1"
             createdAt := 0
             status := .pending
             expiresAt := 0 + 30 * 86400000 } := by
  have h := anchoring_failure_keeps_case [] "lease-1" ["a", "b", "c"] "w1" "d1"
    0 30 "timeout"
    (hashNode (hashNode (hashLeaf "a") (hashLeaf "b"))
      (hashNode (hashLeaf "c") (hashLeaf "c")))
    (by decide) (by decide) (by decide)
  exact ⟨by decide, by decide, by decide, h.1, h.2⟩

/-- C10: the sweep is frame-bounded — a case present after the sweep existed
before it with identical `id`, `leaseId`, `evidenceTxIds`, `merkleRoot`,
`createdBy`, `createdAt`, `expiresAt`, `arweaveTxId` and `updatedBy`; it is
either entirely unchanged or changed only in `status` (to expired) and
`updatedAt`; and a case the sweep does not transition is entirely
unchanged. -/
theorem sweep_frame_bounded (db : Svc.Db) (now : Nat) (k : String)
    (d d2 : Svc.Dispute) (hnd : Svc.NodupKeys db)
    (hget : Svc.dbGet db k = some d)
    (hpost : Svc.dbGet (Svc.cleanupExpiredDisputes db now).1 k = some d2) :
    d2.id = d.id ∧ d2.leaseId = d.leaseId ∧ d2.evidenceTxIds = d.evidenceTxIds ∧
    d2.merkleRoot = d.merkleRoot ∧ d2.createdBy = d.createdBy ∧
    d2.createdAt = d.createdAt ∧ d2.expiresAt = d.expiresAt ∧
    d2.arweaveTxId = d.arweaveTxId ∧ d2.updatedBy = d.updatedBy ∧
    (d2 = d ∨ (d2.status = Svc.Status.expired ∧ d2.updatedAt = some now)) ∧
    (¬(d.expiresAt < now ∧ d.status = Svc.Status.pending) → d2 = d) := by
  rw [Svc.dbGet_cleanupExpiredDisputes hnd, hget] at hpost
  simp only [Option.map_some'] at hpost
  have hd2 : d2 = if d.expiresAt < now ∧ d.status = Svc.Status.pending
      then Svc.expireDispute d now else d :=
    (Option.some.inj hpost).symm
  by_cases hc : d.expiresAt < now ∧ d.status = Svc.Status.pending
  · rw [hd2, if_pos hc]
    exact ⟨rfl, rfl, rfl, rfl, rfl, rfl, rfl, rfl, rfl, Or.inr ⟨rfl, rfl⟩,
      fun hn => absurd hc hn⟩
  · rw [hd2, if_neg hc]
    exact ⟨rfl, rfl, rfl, rfl, rfl, rfl, rfl, rfl, rfl, Or.inl rfl, fun _ => rfl⟩

/-- Witness for `sweep_frame_bounded` on a concrete swept case. -/
theorem sweep_frame_bounded_witness :
    Svc.NodupKeys [("d1", pendingCase)] ∧
    Svc.dbGet [("d1", pendingCase)] "d1" = some pendingCase ∧
    Svc.dbGet (Svc.cleanupExpiredDisputes [("d1", pendingCase)] 500).1 "d1" =
      some (Svc.expireDispute pendingCase 500) ∧
    ((Svc.expireDispute pendingCase 500).id = pendingCase.id ∧
      (Svc.expireDispute pendingCase 500).leaseId = pendingCase.leaseId ∧
      (Svc.expireDispute pendingCase 500).evidenceTxIds = pendingCase.evidenceTxIds ∧
      (Svc.expireDispute pendingCase 500).merkleRoot = pendingCase.merkleRoot ∧
      (Svc.expireDispute pendingCase 500).createdBy = pendingCase.createdBy ∧
      (Svc.expireDispute pendingCase 500).createdAt = pendingCase.createdAt ∧
      (Svc.expireDispute pendingCase 500).expiresAt = pendingCase.expiresAt ∧
      (Svc.expireDispute pendingCase 500).arweaveTxId = pendingCase.arweaveTxId ∧
      (Svc.expireDispute pendingCase 500).updatedBy = pendingCase.updatedBy ∧
      (Svc.expireDispute pendingCase 500 = pendingCase ∨
        ((Svc.expireDispute pendingCase 500).status = Svc.Status.expired ∧
          (Svc.expireDispute pendingCase 500).updatedAt = some 500)) ∧
      (¬(pendingCase.expiresAt < 500 ∧ pendingCase.status = Svc.Status.pending) →
        Svc.expireDispute pendingCase 500 = pendingCase)) :=
  ⟨by decide, by decide, by decide,
    sweep_frame_bounded [("d1", pendingCase)] 500 "d1" pendingCase
      (Svc.expireDispute pendingCase 500) (by decide) (by decide) (by decide)⟩

end RentalAgent
